import Mathlib

/-!
Shallow embedding of the slidevid conversion pipeline (src/src/lib.rs) and
proofs about it.  The Rust source drives a decode / scale / encode / mux
pipeline over FFmpeg; the FFmpeg library calls (archive reads, codec
open/find, frame availability, file writes) are outside collaborators and
appear here as explicit parameters of an environment record, while every
piece of arithmetic and control flow of the source file itself is translated
directly.
-/

namespace Slidevid

/-- Rational time base, mirroring ffmpeg Rational (numerator, denominator). -/
structure Rational where
  num : Int
  den : Int
deriving DecidableEq

/-- Rational::invert swaps numerator and denominator (used at lib.rs line 142). -/
def Rational.invert (r : Rational) : Rational := ⟨r.den, r.num⟩

/-- MILLIS constant (lib.rs line 18). -/
def MILLIS : Int := 1000

/-- DECODER_TIME_BASE = Rational(1, MILLIS) (lib.rs line 19). -/
def DECODER_TIME_BASE : Rational := ⟨1, MILLIS⟩

/-- OUTPUT_TIME_BASE = Rational(1, 90000) (lib.rs line 20). -/
def OUTPUT_TIME_BASE : Rational := ⟨1, 90000⟩

/-- The errno value EAGAIN used by the drain signal classification. -/
def EAGAIN : Int := 11

/-- INT64_MIN, the value av_rescale_rnd returns on an invalid multiplier. -/
def INT64_MIN : Int := -(2 ^ 63)

/-- Embedding of FFmpeg av_rescale_rnd with rounding AV_ROUND_NEAR_INF
(round to nearest, ties away from zero).  For c ≤ 0 or b < 0 the C function
returns INT64_MIN; for nonnegative a it computes (a * b + c / 2) / c in
nonnegative integer arithmetic; for negative a it recurses on the negation
and flips the sign. -/
def avRescaleNear (a b c : Int) : Int :=
  if c ≤ 0 ∨ b < 0 then INT64_MIN
  else if a < 0 then -(((((-a).toNat) * b.toNat + c.toNat / 2) / c.toNat : Nat) : Int)
  else (((a.toNat * b.toNat + c.toNat / 2) / c.toNat : Nat) : Int)

/-- Embedding of av_rescale_q: rescale a value from time base src to time
base dst, with b = src.num * dst.den and c = dst.num * src.den.  This is what
Packet::rescale_ts applies to the packet pts (lib.rs line 37 and line 71). -/
def rescaleQ (a : Int) (src dst : Rational) : Int :=
  avRescaleNear a (src.num * dst.den) (dst.num * src.den)

/-- Twos-complement cast of a u32 value (a Nat below 2^32) to i32, as in
the cast of the minimum delay at lib.rs line 96. -/
def u32_as_i32 (v : Nat) : Int :=
  if v < 2 ^ 31 then (v : Int) else (v : Int) - 2 ^ 32

/-- The derived encode time base Rational(lowest_delay as i32, MILLIS)
(lib.rs line 111). -/
def encTimeBase (lowestDelay : Nat) : Rational := ⟨u32_as_i32 lowestDelay, MILLIS⟩

/-- Embedding of Iterator::min over the frame delays (lib.rs lines 92-96):
none exactly on the empty list, otherwise the minimum value. -/
def listMin : List Nat → Option Nat
  | [] => none
  | d :: ds =>
    some (match listMin ds with
      | none => d
      | some m => min d m)

/-- ASCII lower-casing of one byte, as used by eq_ignore_ascii_case. -/
def toAsciiLower (b : Nat) : Nat := if 65 ≤ b ∧ b ≤ 90 then b + 32 else b

/-- Embedding of byte-slice eq_ignore_ascii_case: equal after ASCII
lower-casing both sides (length inequality makes the mapped lists differ). -/
def eq_ignore_ascii_case (xs ys : List Nat) : Bool :=
  (xs.map toAsciiLower) == (ys.map toAsciiLower)

/-- The byte literal for the lowercase letters p, n, g. -/
def pngBytes : List Nat := [112, 110, 103]

/-- The codec identifiers the source selects between. -/
inductive CodecId
  | PNG
  | MJPEG
  | H264
deriving DecidableEq

/-- Decoder selection from the first frame filename bytes (lib.rs lines
100-107): PNG when the name has at least three bytes and its final three
bytes equal png ignoring ASCII case, MJPEG otherwise. -/
def selectDecoderId (name : List Nat) : CodecId :=
  if 3 ≤ name.length ∧ eq_ignore_ascii_case (name.drop (name.length - 3)) pngBytes = true then
    CodecId.PNG
  else
    CodecId.MJPEG

/-- Modelled from the spec wording of claim C4, for comparison with the
source selection rule: the final three characters match png
case-insensitively. -/
def endsInPngCI (name : List Nat) : Prop :=
  3 ≤ name.length ∧ (name.drop (name.length - 3)).map toAsciiLower = pngBytes

instance (name : List Nat) : Decidable (endsInPngCI name) := by
  unfold endsInPngCI; infer_instance

/-- The pts assigned inside send_packet (lib.rs lines 35-37): the running
counter value, rescaled from the decode time base into the target time
base. -/
def send_packet_pts (ts : Int) (time_base : Rational) : Int :=
  rescaleQ ts DECODER_TIME_BASE time_base

/-- The pts values assigned to the successive submitted packets by repeated
send_packet calls: the counter starts at the given value and advances by
each delay after submission (lib.rs lines 35 and 38). -/
def sentPtsList (time_base : Rational) : List Nat → Int → List Int
  | [], _ => []
  | d :: ds, ts => send_packet_pts ts time_base :: sentPtsList time_base ds (ts + d)

/-- Pixel formats.  The source only distinguishes the fixed encoder format
YUV420P (lib.rs line 23) from whatever format decoded frames carry. -/
inductive Pixel
  | yuv420p
  | rgb24
  | gray8
  | pal8
deriving DecidableEq

/-- A frame geometry: the (format, width, height) triple compared by
send_frame (lib.rs lines 50-51). -/
structure Geometry where
  format : Pixel
  width : Nat
  height : Nat
deriving DecidableEq

/-- A raster frame as the pipeline sees it: its geometry and its
presentation timestamp. -/
structure VideoFrame where
  geom : Geometry
  pts : Int
deriving DecidableEq

/-- The scaling context (lib.rs lines 124-132): cached source key, fixed
destination key, plus a count of how many times the plan was rebuilt by
scaler.cached (lib.rs line 53). -/
structure Scaler where
  src : Geometry
  dst : Geometry
  rebuilds : Nat
deriving DecidableEq

/-- Decoder-side state: frames decoded from submitted packets that the
decoder has not yet handed out, and whether send_eof was called. -/
structure DecSt where
  inbuf : List VideoFrame
  flushed : Bool
deriving DecidableEq

/-- Encoder-side state: scaled frames submitted and not yet returned as
packets, and whether send_eof was called. -/
structure EncSt where
  inbuf : List VideoFrame
  flushed : Bool
deriving DecidableEq

/-- FFmpeg-level errors as classified by wrap_result (lib.rs lines 77-84). -/
inductive AVError
  | eof
  | other (errno : Int)
  | invalidData
deriving DecidableEq

/-- Embedding of wrap_result (lib.rs lines 77-84): success maps to true,
the two drain signals EAGAIN and EOF map to false, everything else stays an
error. -/
def wrap_result : Except AVError Unit → Except AVError Bool
  | .ok _ => .ok true
  | .error (AVError.other e) =>
    if e = EAGAIN then .ok false else .error (AVError.other e)
  | .error AVError.eof => .ok false
  | .error e => .error e

/-- Errors of the conversion, one per fallible step of convert_to_mp4. -/
inductive ConvError
  | zipError
  | emptyInput
  | noDecoder
  | decoderOpenError
  | entryError
  | codecError (e : AVError)
  | scalerError
  | outputError
  | noEncoder
  | encOpenError
  | headerError
  | writeError
  | trailerError
deriving DecidableEq

/-- Observable output-file operations performed by convert_to_mp4. -/
inductive Event
  | outputOpen
  | writeHeader
  | writePacket (pts : Int)
  | writeTrailer
deriving DecidableEq

/-- Recognizer for packet writes, used to count encoded frames. -/
def isWritePacket : Event → Bool
  | Event.writePacket _ => true
  | _ => false

/-- A caller-supplied frame: filename bytes and delay in milliseconds
(lib.rs lines 13-16; delay has type u32). -/
structure FrameSpec where
  filename : List Nat
  delay : Nat
deriving DecidableEq

/-- Outcomes of the outside collaborators (archive, codec registry, codec
availability, file system).  Everything the source computes itself is NOT in
here; these are exactly the results of the library calls the source makes.
decDelay and encDelay say how many frames the decoder and the encoder keep
buffered before making output available while not yet flushed. -/
structure Env where
  zipOk : Bool
  entryOk : List Nat → Bool
  geometryOf : List Nat → Geometry
  findDecoder : CodecId → Bool
  decoderOpenOk : Bool
  decDelay : Nat
  scalerInitOk : Bool
  outputOpenOk : Bool
  encoderFound : Bool
  encOpenOk : Bool
  headerOk : Bool
  encDelay : Nat
  writeOk : Bool
  trailerOk : Bool

/-- Embedding of send_packet (lib.rs lines 25-41): read the entry bytes
(fallible), set pts from the running counter rescaled into time_base, then
advance the counter by the raw duration and hand the packet to the decoder.
Submitting the packet makes one decoded frame (whose geometry the archive
entry determines) join the decoder buffer. -/
def send_packet (entryOk : Bool) (geom : Geometry) (dec : DecSt) (ts : Int)
    (duration : Int) (time_base : Rational) : Except ConvError (DecSt × Int × Int) :=
  if entryOk then
    let pts := send_packet_pts ts time_base
    .ok ({ dec with inbuf := dec.inbuf ++ [{ geom := geom, pts := pts }] }, pts, ts + duration)
  else .error ConvError.entryError

/-- The decoder receive_frame call: a frame is available when the decoder
was flushed, or when more than decDelay frames are pending; otherwise the
call reports EAGAIN, or EOF when flushed and empty. -/
def receive_frame (decDelay : Nat) (dec : DecSt) : Except AVError (VideoFrame × DecSt) :=
  match dec.inbuf with
  | [] => if dec.flushed then .error AVError.eof else .error (AVError.other EAGAIN)
  | f :: rest =>
    if dec.flushed ∨ decDelay < (f :: rest).length then
      .ok (f, { dec with inbuf := rest })
    else .error (AVError.other EAGAIN)

/-- Embedding of send_frame (lib.rs lines 43-62): when the decoded frame
geometry differs from the cached scaler source key, rebuild the plan for the
new source against the unchanged destination; run the plan, producing a
frame in the destination geometry carrying the decoded pts; submit it to the
encoder. -/
def send_frame (enc : EncSt) (decoded : VideoFrame) (scaler : Scaler) :
    EncSt × Scaler × VideoFrame :=
  let scaler :=
    if decoded.geom ≠ scaler.src then
      { src := decoded.geom, dst := scaler.dst, rebuilds := scaler.rebuilds + 1 }
    else scaler
  let scaled : VideoFrame := { geom := scaler.dst, pts := decoded.pts }
  ({ enc with inbuf := enc.inbuf ++ [scaled] }, scaler, scaled)

/-- The loop body of receive_packet (lib.rs lines 64-75): repeatedly pull a
packet while one is available (flushed, or more than encDelay pending);
rescale its pts from time_base into OUTPUT_TIME_BASE and write it.  When no
packet is available the loop ends normally; a write failure aborts. -/
def receive_packet_loop (encDelay : Nat) (writeOk : Bool) (time_base : Rational)
    (flushed : Bool) : List VideoFrame → List Event →
    Except (ConvError × List Event) (List VideoFrame × List Event)
  | [], evs => .ok ([], evs)
  | p :: rest, evs =>
    if flushed ∨ encDelay < (p :: rest).length then
      if writeOk then
        receive_packet_loop encDelay writeOk time_base flushed rest
          (evs ++ [Event.writePacket (rescaleQ p.pts time_base OUTPUT_TIME_BASE)])
      else .error (ConvError.writeError, evs)
    else .ok (p :: rest, evs)

/-- Embedding of receive_packet (lib.rs lines 64-75) on the encoder state. -/
def receive_packet (env : Env) (time_base : Rational) (enc : EncSt) (evs : List Event) :
    Except (ConvError × List Event) (EncSt × List Event) :=
  match receive_packet_loop env.encDelay env.writeOk time_base enc.flushed enc.inbuf evs with
  | .error e => .error e
  | .ok (rest, evs) => .ok ({ enc with inbuf := rest }, evs)

/-- State carried between pipeline steps while frames are streamed: the
scaler, the encoder, the output events so far, and the geometries of the
scaled frames in scaling order. -/
structure DrainSt where
  scaler : Scaler
  enc : EncSt
  events : List Event
  scaledGeoms : List Geometry
deriving DecidableEq

/-- The decoder drain loop (lib.rs lines 162-165 and 168-171):
each iteration receives a frame through wrap_result, scales and encodes it
and drains the encoder, until no frame is available.  Each available decoded frame is scaled, submitted
to the encoder, and the encoder is drained, before the next receive;
unavailability (EAGAIN, or EOF when flushed) ends the loop normally. -/
def drain_decoder_loop (env : Env) (flushed : Bool) (time_base : Rational) :
    List VideoFrame → DrainSt →
    Except (ConvError × List Event) (List VideoFrame × DrainSt)
  | [], st => .ok ([], st)
  | f :: rest, st =>
    if flushed ∨ env.decDelay < (f :: rest).length then
      let r := send_frame st.enc f st.scaler
      match receive_packet env time_base r.1 st.events with
      | .error e => .error e
      | .ok (enc2, evs2) =>
        drain_decoder_loop env flushed time_base rest
          { scaler := r.2.1, enc := enc2, events := evs2,
            scaledGeoms := st.scaledGeoms ++ [r.2.2.geom] }
    else .ok (f :: rest, st)

/-- Streaming-loop state: decoder state, pipeline state, the running
timestamp counter, and the counter and pts values recorded per submitted
packet. -/
structure LoopSt where
  dec : DecSt
  drain : DrainSt
  ts : Int
  rawTs : List Int
  sentPts : List Int

/-- The main per-frame loop of convert_to_mp4 (lib.rs lines 154-166): for
each remaining frame submit its packet, then fully drain the decoder,
scaling, encoding and writing each decoded frame. -/
def stream_loop (env : Env) (time_base : Rational) :
    List FrameSpec → LoopSt → Except (ConvError × List Event) LoopSt
  | [], st => .ok st
  | fr :: rest, st =>
    match send_packet (env.entryOk fr.filename) (env.geometryOf fr.filename)
        st.dec st.ts (fr.delay : Int) time_base with
    | .error e => .error (e, st.drain.events)
    | .ok (dec, pts, ts2) =>
      match drain_decoder_loop env false time_base dec.inbuf st.drain with
      | .error e => .error e
      | .ok (inbuf2, drain2) =>
        stream_loop env time_base rest
          { dec := { inbuf := inbuf2, flushed := false }, drain := drain2,
            ts := ts2, rawTs := st.rawTs ++ [st.ts], sentPts := st.sentPts ++ [pts] }

/-- Data of a successful conversion recorded for the statements below. -/
structure ConvStats where
  decoderId : CodecId
  encTb : Rational
  frameRate : Rational
  encoderTimeBase : Rational
  streamTimeBase : Rational
  dstW : Nat
  dstH : Nat
  scalerFinal : Scaler
  rawTs : List Int
  sentPts : List Int
  scaledGeoms : List Geometry
deriving DecidableEq

/-- Result of a conversion: the output-file events that happened, and the
overall result. -/
structure ConvOut where
  events : List Event
  result : Except ConvError ConvStats

/-- Round a dimension up to even: w + w % 2 (lib.rs line 123). -/
def padEven (n : Nat) : Nat := n + n % 2

/-- Embedding of convert_to_mp4 (lib.rs lines 86-176), step for step:
open the archive; take the minimum delay (empty input errors here); select
and open the decoder from the first filename; submit the first packet with
the counter at 0; synchronously receive the first decoded frame (any error
propagates); fix the even-padded output geometry and build the scaler; open
the output file; find the H264 encoder, configure it (global header, padded
size, frame rate = inverted encode time base, YUV420P, encode time base) and
open it; set the stream time base to OUTPUT_TIME_BASE; write the header;
scale+encode+drain the first frame; stream the remaining frames; flush and
drain the decoder, then the encoder; write the trailer. -/
def convert (env : Env) (frames : List FrameSpec) : ConvOut :=
  if env.zipOk then
    match listMin (frames.map (·.delay)), frames with
    | none, _ => { events := [], result := .error ConvError.emptyInput }
    | some _, [] => { events := [], result := .error ConvError.emptyInput }
    | some lowest, frame :: rest =>
      let decId := selectDecoderId frame.filename
      if env.findDecoder decId then
        if env.decoderOpenOk then
          let enc_tb := encTimeBase lowest
          match send_packet (env.entryOk frame.filename) (env.geometryOf frame.filename)
              { inbuf := [], flushed := false } 0 (frame.delay : Int) enc_tb with
          | .error e => { events := [], result := .error e }
          | .ok (dec, pts0, ts0) =>
            match receive_frame env.decDelay dec with
            | .error e => { events := [], result := .error (ConvError.codecError e) }
            | .ok (decoded, dec) =>
              let dstW := padEven decoded.geom.width
              let dstH := padEven decoded.geom.height
              if env.scalerInitOk then
                let scaler : Scaler :=
                  { src := decoded.geom,
                    dst := { format := Pixel.yuv420p, width := dstW, height := dstH },
                    rebuilds := 0 }
                if env.outputOpenOk then
                  let events := [Event.outputOpen]
                  if env.encoderFound then
                    let encoderTimeBase := enc_tb
                    let frameRate := enc_tb.invert
                    if env.encOpenOk then
                      let streamTimeBase := OUTPUT_TIME_BASE
                      if env.headerOk then
                        let events := events ++ [Event.writeHeader]
                        let r := send_frame { inbuf := [], flushed := false } decoded scaler
                        match receive_packet env enc_tb r.1 events with
                        | .error (e, evs) => { events := evs, result := .error e }
                        | .ok (enc, events) =>
                          match stream_loop env enc_tb rest
                              { dec := dec,
                                drain := { scaler := r.2.1, enc := enc, events := events,
                                           scaledGeoms := [r.2.2.geom] },
                                ts := ts0, rawTs := [0], sentPts := [pts0] } with
                          | .error (e, evs) => { events := evs, result := .error e }
                          | .ok st =>
                            match drain_decoder_loop env true enc_tb st.dec.inbuf st.drain with
                            | .error (e, evs) => { events := evs, result := .error e }
                            | .ok (_, drain2) =>
                              match receive_packet env enc_tb
                                  { inbuf := drain2.enc.inbuf, flushed := true }
                                  drain2.events with
                              | .error (e, evs) => { events := evs, result := .error e }
                              | .ok (_, events) =>
                                if env.trailerOk then
                                  { events := events ++ [Event.writeTrailer],
                                    result := .ok {
                                      decoderId := decId, encTb := enc_tb,
                                      frameRate := frameRate,
                                      encoderTimeBase := encoderTimeBase,
                                      streamTimeBase := streamTimeBase,
                                      dstW := dstW, dstH := dstH,
                                      scalerFinal := drain2.scaler,
                                      rawTs := st.rawTs, sentPts := st.sentPts,
                                      scaledGeoms := drain2.scaledGeoms } }
                                else { events := events, result := .error ConvError.trailerError }
                      else { events := events, result := .error ConvError.headerError }
                    else { events := events, result := .error ConvError.encOpenError }
                  else { events := events, result := .error ConvError.noEncoder }
                else { events := [], result := .error ConvError.outputError }
              else { events := [], result := .error ConvError.scalerError }
        else { events := [], result := .error ConvError.decoderOpenError }
      else { events := [], result := .error ConvError.noDecoder }
  else { events := [], result := .error ConvError.zipError }

/-- The stats of a conversion when it succeeded. -/
def statsOf (o : ConvOut) : Option ConvStats := o.result.toOption

/-- An environment in which every outside collaborator succeeds, the
decoder and the encoder buffer nothing, and every archive entry decodes to
a 101 by 99 RGB frame. -/
def env0 : Env :=
  { zipOk := true, entryOk := fun _ => true,
    geometryOf := fun _ => { format := Pixel.rgb24, width := 101, height := 99 },
    findDecoder := fun _ => true, decoderOpenOk := true, decDelay := 0,
    scalerInitOk := true, outputOpenOk := true, encoderFound := true,
    encOpenOk := true, headerOk := true, encDelay := 0, writeOk := true,
    trailerOk := true }

/-- Three frames (names are the single bytes 1, 2, 3) with delays 100, 200
and 100 milliseconds. -/
def frames3 : List FrameSpec := [⟨[49], 100⟩, ⟨[50], 200⟩, ⟨[51], 100⟩]

/-- The concrete three-frame run of the scenario claims. -/
def run3 : ConvOut := convert env0 frames3

/-- The stats the three-frame run produces. -/
def stats3 : ConvStats :=
  { decoderId := CodecId.MJPEG, encTb := ⟨100, 1000⟩, frameRate := ⟨1000, 100⟩,
    encoderTimeBase := ⟨100, 1000⟩, streamTimeBase := ⟨1, 90000⟩,
    dstW := 102, dstH := 100,
    scalerFinal := ⟨⟨Pixel.rgb24, 101, 99⟩, ⟨Pixel.yuv420p, 102, 100⟩, 0⟩,
    rawTs := [0, 100, 300], sentPts := [0, 1, 3],
    scaledGeoms := [⟨Pixel.yuv420p, 102, 100⟩, ⟨Pixel.yuv420p, 102, 100⟩,
                    ⟨Pixel.yuv420p, 102, 100⟩] }

/-- env0 with archive bytes that do not parse as a zip archive. -/
def envBadZip : Env := { env0 with zipOk := false }

/-- env0 with a decoder that holds the first image back (one frame of
internal latency before output becomes available). -/
def env9 : Env := { env0 with decDelay := 1 }

/-- First source geometry of the geometry-change scenario. -/
def geomA : Geometry := { format := Pixel.rgb24, width := 101, height := 99 }

/-- Second, different source geometry of the geometry-change scenario. -/
def geomB : Geometry := { format := Pixel.gray8, width := 50, height := 60 }

/-- Environment in which the entry named by the byte 2 decodes with
geometry geomB while everything else decodes with geometry geomA. -/
def env7 : Env := { env0 with geometryOf := fun n => if n = [50] then geomB else geomA }

/-- Two frames whose second decodes with a different source geometry. -/
def frames7 : List FrameSpec := [⟨[49], 100⟩, ⟨[50], 100⟩]

/-- The concrete two-frame geometry-change run. -/
def run7 : ConvOut := convert env7 frames7

/-- A scaled-frame value used by closed witness statements. -/
def frameW : VideoFrame := { geom := geomA, pts := 0 }

/-- A pipeline state used by closed witness statements. -/
def drainW : DrainSt :=
  { scaler := ⟨geomA, ⟨Pixel.yuv420p, 102, 100⟩, 0⟩, enc := ⟨[], false⟩,
    events := [], scaledGeoms := [] }

section Lemmas

/-- avRescaleNear is monotone in its first argument on nonnegative inputs:
either the multiplier is invalid and both sides are INT64_MIN, or the
nonnegative-integer formula is monotone. -/
lemma avRescaleNear_mono (b c x y : Int) (hx : 0 ≤ x) (hxy : x ≤ y) :
    avRescaleNear x b c ≤ avRescaleNear y b c := by
  unfold avRescaleNear
  split
  · exact le_refl _
  · rw [if_neg (by omega : ¬ x < 0), if_neg (by omega : ¬ y < 0)]
    have hxy2 : x.toNat ≤ y.toNat := Int.toNat_le_toNat hxy
    exact_mod_cast Nat.div_le_div_right
      (Nat.add_le_add_right (Nat.mul_le_mul_right _ hxy2) _)

/-- The pts assigned in send_packet is monotone in the counter value. -/
lemma send_packet_pts_mono (tb : Rational) (x y : Int) (hx : 0 ≤ x) (hxy : x ≤ y) :
    send_packet_pts x tb ≤ send_packet_pts y tb :=
  avRescaleNear_mono _ _ x y hx hxy

/-- Starting from a nonnegative counter, the pts values of the successive
submitted packets form a non-decreasing chain. -/
lemma sentPtsList_chain (tb : Rational) :
    ∀ (ds : List Nat) (t : Int), 0 ≤ t → List.Chain' (· ≤ ·) (sentPtsList tb ds t) := by
  intro ds
  induction ds with
  | nil => intro t ht; simp [sentPtsList]
  | cons d rest ih =>
    intro t ht
    cases rest with
    | nil => simp [sentPtsList]
    | cons e rest2 =>
      rw [sentPtsList, sentPtsList]
      refine List.chain'_cons.mpr ⟨?_, ?_⟩
      · exact send_packet_pts_mono tb t (t + d) ht (by omega)
      · exact ih (t + d) (by omega)

/-- A value returned by listMin is an element of the list. -/
lemma listMin_mem : ∀ (l : List Nat) (m : Nat), listMin l = some m → m ∈ l := by
  intro l
  induction l with
  | nil => intro m h; simp [listMin] at h
  | cons d ds ih =>
    intro m h
    simp only [listMin] at h
    injection h with h
    cases hds : listMin ds with
    | none => rw [hds] at h; simp at h; simp [h]
    | some k =>
      rw [hds] at h
      simp only at h
      rcases le_total d k with hdk | hdk
      · rw [min_eq_left hdk] at h; simp [h]
      · rw [min_eq_right hdk] at h
        exact List.mem_cons_of_mem _ (h ▸ ih k hds)

/-- eq_ignore_ascii_case against the png bytes holds exactly when the
lower-cased input equals them. -/
lemma eq_ignore_png (xs : List Nat) :
    eq_ignore_ascii_case xs pngBytes = true ↔ xs.map toAsciiLower = pngBytes := by
  unfold eq_ignore_ascii_case
  rw [beq_iff_eq, (by decide : pngBytes.map toAsciiLower = pngBytes)]

/-- The source selection rule agrees with the spec-side predicate. -/
lemma selectDecoderId_png_iff (name : List Nat) :
    selectDecoderId name = CodecId.PNG ↔ endsInPngCI name := by
  unfold selectDecoderId endsInPngCI
  by_cases hc : 3 ≤ name.length ∧
      eq_ignore_ascii_case (name.drop (name.length - 3)) pngBytes = true
  · rw [if_pos hc]
    exact iff_of_true rfl ⟨hc.1, (eq_ignore_png _).mp hc.2⟩
  · rw [if_neg hc]
    refine iff_of_false (by simp) fun hpng => hc ⟨hpng.1, (eq_ignore_png _).mpr hpng.2⟩

/-- Even-padding produces an even dimension. -/
lemma padEven_even (n : Nat) : padEven n % 2 = 0 := by
  unfold padEven; omega

/-- send_frame never changes the scaler destination key. -/
lemma send_frame_scaler_dst (enc : EncSt) (d : VideoFrame) (sc : Scaler) :
    (send_frame enc d sc).2.1.dst = sc.dst := by
  unfold send_frame
  split <;> rfl

/-- send_frame scales into the cached destination geometry. -/
lemma send_frame_scaled_geom (enc : EncSt) (d : VideoFrame) (sc : Scaler) :
    (send_frame enc d sc).2.2.geom = sc.dst := by
  unfold send_frame
  split <;> rfl

/-- A successful decoder drain never changes the scaler destination key. -/
lemma drain_dst (env : Env) (fl : Bool) (tb : Rational) :
    ∀ (l : List VideoFrame) (st : DrainSt) (out : List VideoFrame × DrainSt),
      drain_decoder_loop env fl tb l st = .ok out → out.2.scaler.dst = st.scaler.dst := by
  intro l
  induction l with
  | nil =>
    intro st out h
    simp only [drain_decoder_loop] at h
    simp at h
    rw [← h]
  | cons f rest ih =>
    intro st out h
    simp only [drain_decoder_loop] at h
    split at h
    · split at h
      · simp at h
      · have := ih _ _ h
        rw [this, send_frame_scaler_dst]
    · simp at h
      rw [← h]

/-- A successful streaming loop never changes the scaler destination key. -/
lemma stream_dst (env : Env) (tb : Rational) :
    ∀ (fs : List FrameSpec) (st out : LoopSt),
      stream_loop env tb fs st = .ok out → out.drain.scaler.dst = st.drain.scaler.dst := by
  intro fs
  induction fs with
  | nil =>
    intro st out h
    simp only [stream_loop] at h
    simp at h
    rw [← h]
  | cons fr rest ih =>
    intro st out h
    simp only [stream_loop] at h
    split at h
    · simp at h
    · split at h
      · simp at h
      · have h2 := ih _ _ h
        rename_i dec pts ts2 heqsp inbuf2 drain2 heqdr
        rw [h2]
        exact drain_dst env false tb _ _ _ heqdr

/-- Unfolding a successful send_packet call. -/
lemma send_packet_ok (eok : Bool) (g : Geometry) (dec : DecSt) (ts dur : Int)
    (tb : Rational) (dec2 : DecSt) (pts ts2 : Int)
    (h : send_packet eok g dec ts dur tb = .ok (dec2, pts, ts2)) :
    dec2 = { dec with inbuf := dec.inbuf ++ [{ geom := g, pts := send_packet_pts ts tb }] } ∧
    pts = send_packet_pts ts tb ∧ ts2 = ts + dur := by
  unfold send_packet at h
  split at h
  · simp at h
    exact ⟨h.1.symm, h.2.1.symm, h.2.2.symm⟩
  · simp at h

/-- A successful receive from a one-frame, unflushed decoder hands out that
frame and leaves the buffer empty. -/
lemma receive_frame_single (d : Nat) (fr : VideoFrame) (decoded : VideoFrame)
    (dec2 : DecSt)
    (h : receive_frame d { inbuf := [fr], flushed := false } = .ok (decoded, dec2)) :
    decoded = fr ∧ dec2 = { inbuf := [], flushed := false } := by
  unfold receive_frame at h
  simp at h
  split at h
  · simp at h
    exact ⟨h.1.symm, h.2.symm⟩
  · simp at h

/-- Every successful conversion of a non-empty frame list fixes its
configuration exactly as the source does: decoder from the first filename,
encode time base from the minimum delay, frame rate its inverse, stream
time base the fixed output time base, destination geometry the even-padded
geometry of the first decoded frame, held by the scaler to the end. -/
lemma convert_ok_fields (env : Env) (f : FrameSpec) (rest : List FrameSpec)
    (stats : ConvStats) (h : (convert env (f :: rest)).result = .ok stats) :
    stats.decoderId = selectDecoderId f.filename ∧
    stats.encTb = encTimeBase ((listMin ((f :: rest).map (·.delay))).getD 0) ∧
    stats.frameRate = stats.encTb.invert ∧
    stats.encoderTimeBase = stats.encTb ∧
    stats.streamTimeBase = OUTPUT_TIME_BASE ∧
    stats.dstW = padEven (env.geometryOf f.filename).width ∧
    stats.dstH = padEven (env.geometryOf f.filename).height ∧
    stats.scalerFinal.dst =
      { format := Pixel.yuv420p, width := stats.dstW, height := stats.dstH } := by
  unfold convert at h
  split at h <;> try simp at h
  split at h <;> try simp at h
  rename_i lowest frame rest' heqmin heqcons
  injection heqcons with hf hrest
  subst hf; subst hrest
  split at h <;> try simp at h
  split at h <;> try simp at h
  split at h <;> try simp at h
  rename_i dec1 pts0 ts0 heqsp
  split at h <;> try simp at h
  rename_i decoded dec2 heqrf
  obtain ⟨hdec1, hpts0, hts0⟩ := send_packet_ok _ _ _ _ _ _ _ _ _ heqsp
  simp at hdec1
  subst hdec1
  obtain ⟨hdecoded, hdec2⟩ := receive_frame_single _ _ _ _ heqrf
  subst hdecoded
  split at h <;> try simp at h
  split at h <;> try simp at h
  split at h <;> try simp at h
  split at h <;> try simp at h
  split at h <;> try simp at h
  split at h <;> try simp at h
  split at h <;> try simp at h
  rename_i st heqstream
  split at h <;> try simp at h
  rename_i leftover drain2 heqdrain
  split at h <;> try simp at h
  split at h <;> try simp at h
  subst h
  refine ⟨rfl, ?_, rfl, rfl, rfl, rfl, rfl, ?_⟩
  · simp only [List.map_cons]
    rw [heqmin]
    rfl
  · have h1 := drain_dst env true (encTimeBase lowest) _ _ _ heqdrain
    have h2 := stream_dst env (encTimeBase lowest) _ _ _ heqstream
    rw [h1, h2]
    simp [send_frame_scaler_dst]

end Lemmas

/-- Claim C1: for every non-empty frame sequence with all delays at least 1,
the presentation timestamps assigned to the submitted packets in
send_packet — the running cumulative counter rescaled from the decode time
base 1/1000 into the encode time base lowestDelay/1000 — are non-decreasing
across the whole run. -/
theorem sent_pts_monotone (delays : List Nat) (m : Nat) (hne : delays ≠ [])
    (hd : ∀ d ∈ delays, 1 ≤ d ∧ d < 2 ^ 32) (hm : listMin delays = some m) :
    List.Chain' (· ≤ ·) (sentPtsList (encTimeBase m) delays 0) :=
  sentPtsList_chain (encTimeBase m) delays 0 le_rfl

/-- Witness for C1 at the delays 100, 200, 100. -/
theorem sent_pts_monotone_witness :
    List.Chain' (· ≤ ·) (sentPtsList (encTimeBase 100) [100, 200, 100] 0) :=
  sent_pts_monotone [100, 200, 100] 100 (by decide) (by decide) (by decide)

/-- Claim C2, counterexample: in the concrete successful three-frame run
with minimum delay 100 the time base set on the output video stream is the
fixed 1/90000, not the derived encode time base 100/1000 that the claim
asserts. -/
theorem stream_time_base_cex :
    listMin (frames3.map (·.delay)) = some 100 ∧
    (statsOf run3).map (·.streamTimeBase) = some OUTPUT_TIME_BASE ∧
    (statsOf run3).map (·.streamTimeBase) ≠ some (encTimeBase 100) := by
  refine ⟨by decide, by decide, by decide⟩

/-- Claim C2, amended: for every successful run the time base set on the
output video stream is the fixed container time base 1/90000; the derived
encode time base Rational(lowestDelay, 1000) is set on the encoder context
instead, and it is also the source time base of the packet rescale toward
1/90000 performed before each write. -/
theorem stream_time_base_thm (env : Env) (f : FrameSpec) (rest : List FrameSpec)
    (stats : ConvStats) (h : (convert env (f :: rest)).result = .ok stats) :
    stats.streamTimeBase = OUTPUT_TIME_BASE ∧
    OUTPUT_TIME_BASE = ⟨1, 90000⟩ ∧
    stats.encoderTimeBase = encTimeBase ((listMin ((f :: rest).map (·.delay))).getD 0) ∧
    stats.encTb = stats.encoderTimeBase := by
  obtain ⟨-, h2, -, h4, h5, -⟩ := convert_ok_fields env f rest stats h
  exact ⟨h5, rfl, h4.trans h2, h2.trans (h4.trans h2).symm⟩

/-- Witness for the amended C2 at the concrete three-frame run. -/
theorem stream_time_base_witness :
    stats3.streamTimeBase = OUTPUT_TIME_BASE ∧
    OUTPUT_TIME_BASE = ⟨1, 90000⟩ ∧
    stats3.encoderTimeBase = encTimeBase ((listMin (frames3.map (·.delay))).getD 0) ∧
    stats3.encTb = stats3.encoderTimeBase :=
  stream_time_base_thm env0 ⟨[49], 100⟩ [⟨[50], 200⟩, ⟨[51], 100⟩] stats3 rfl

/-- Claim C3, counterexample: in the three-frame run with delays 100, 200,
100 the running counter values in the source millisecond domain are 0, 100,
300 — not 0, 1000, 3000 as the claim states. -/
theorem three_frames_cex :
    (statsOf run3).map (·.rawTs) = some [0, 100, 300] ∧
    (statsOf run3).map (·.rawTs) ≠ some [0, 1000, 3000] := by
  refine ⟨by decide, by decide⟩

/-- Claim C3, amended: the three-frame run with delays 100, 200, 100 and
identical geometry yields the frame rate 1000/100 (10 frames per second),
three written packets, counter values 0, 100, 300 in the source millisecond
domain before rescale, and pts 0, 1, 3 after rescale into the encode time
base. -/
theorem three_frames_thm :
    (statsOf run3).map (·.frameRate) = some ⟨1000, 100⟩ ∧
    (1000 : Int) = 10 * 100 ∧
    run3.events.countP isWritePacket = 3 ∧
    (statsOf run3).map (·.rawTs) = some [0, 100, 300] ∧
    (statsOf run3).map (·.sentPts) = some [0, 1, 3] := by
  refine ⟨by decide, by decide, by decide, by decide, by decide⟩

/-- Claim C4: the decoder codec is selected from the first frame filename
only; PNG exactly when the final three characters match png ignoring ASCII
case, MJPEG for every other filename, including a.jpg and the one-letter
name a. -/
theorem decoder_selection :
    (∀ name : List Nat,
      (selectDecoderId name = CodecId.PNG ↔ endsInPngCI name) ∧
      (selectDecoderId name = CodecId.PNG ∨ selectDecoderId name = CodecId.MJPEG)) ∧
    selectDecoderId [97, 46, 80, 78, 71] = CodecId.PNG ∧
    selectDecoderId [97, 46, 106, 112, 103] = CodecId.MJPEG ∧
    selectDecoderId [97] = CodecId.MJPEG ∧
    (∀ (env : Env) (f : FrameSpec) (rest : List FrameSpec),
      (statsOf (convert env (f :: rest))).map (·.decoderId) =
      (statsOf (convert env (f :: rest))).map (fun _ => selectDecoderId f.filename)) := by
  refine ⟨?_, by decide, by decide, by decide, ?_⟩
  · intro name
    refine ⟨selectDecoderId_png_iff name, ?_⟩
    unfold selectDecoderId
    split
    · exact Or.inl rfl
    · exact Or.inr rfl
  · intro env f rest
    cases hres : (convert env (f :: rest)).result with
    | error e =>
      unfold statsOf
      rw [hres]
      rfl
    | ok stats =>
      have hid := (convert_ok_fields env f rest stats hres).1
      unfold statsOf
      rw [hres]
      simp [Except.toOption, hid]

/-- Claim C5, counterexample: with archive bytes that do not parse as a zip
archive and an empty frame slice, convert_to_mp4 fails with the zip error,
not the empty-input error (the archive is opened before the frame count is
examined); no output-file operation happens either way. -/
theorem empty_input_cex :
    (convert envBadZip []).result = .error ConvError.zipError ∧
    ConvError.zipError ≠ ConvError.emptyInput ∧
    (convert envBadZip []).events = [] :=
  ⟨rfl, by decide, rfl⟩

/-- Claim C5, amended: with an empty frames slice convert_to_mp4 performs
no output-file operation for any archive input, and it fails with the
empty-input error whenever the archive bytes parse as an archive; when they
do not, the archive error is reported instead. -/
theorem empty_input_thm (env : Env) :
    (convert env []).events = [] ∧
    (env.zipOk = true → (convert env []).result = .error ConvError.emptyInput) ∧
    (env.zipOk = false → (convert env []).result = .error ConvError.zipError) := by
  unfold convert
  cases hz : env.zipOk <;> simp [hz, listMin]

/-- Witness for the amended C5 at env0 and envBadZip. -/
theorem empty_input_witness :
    (convert env0 []).result = .error ConvError.emptyInput ∧
    (convert envBadZip []).result = .error ConvError.zipError :=
  ⟨(empty_input_thm env0).2.1 rfl, (empty_input_thm envBadZip).2.2 rfl⟩

/-- Claim C6: for every successful run the output dimensions are the first
decoded frame dimensions rounded up to even, they are even in both axes,
and the scaler holds them fixed to the end of the run; 101 by 99 pads to
102 by 100. -/
theorem even_dims (env : Env) (f : FrameSpec) (rest : List FrameSpec)
    (stats : ConvStats) (h : (convert env (f :: rest)).result = .ok stats) :
    stats.dstW = (env.geometryOf f.filename).width + (env.geometryOf f.filename).width % 2 ∧
    stats.dstH = (env.geometryOf f.filename).height + (env.geometryOf f.filename).height % 2 ∧
    stats.dstW % 2 = 0 ∧ stats.dstH % 2 = 0 ∧
    stats.scalerFinal.dst =
      { format := Pixel.yuv420p, width := stats.dstW, height := stats.dstH } ∧
    padEven 101 = 102 ∧ padEven 99 = 100 := by
  obtain ⟨-, -, -, -, -, hw, hh, hdst⟩ := convert_ok_fields env f rest stats h
  refine ⟨hw, hh, ?_, ?_, hdst, by decide, by decide⟩
  · rw [hw]; exact padEven_even _
  · rw [hh]; exact padEven_even _

/-- Witness for C6 at the concrete three-frame run. -/
theorem even_dims_witness :
    stats3.dstW = (env0.geometryOf [49]).width + (env0.geometryOf [49]).width % 2 ∧
    stats3.dstH = (env0.geometryOf [49]).height + (env0.geometryOf [49]).height % 2 ∧
    stats3.dstW % 2 = 0 ∧ stats3.dstH % 2 = 0 ∧
    stats3.scalerFinal.dst =
      { format := Pixel.yuv420p, width := stats3.dstW, height := stats3.dstH } ∧
    padEven 101 = 102 ∧ padEven 99 = 100 :=
  even_dims env0 ⟨[49], 100⟩ [⟨[50], 200⟩, ⟨[51], 100⟩] stats3 rfl

/-- Claim C7: on every scale call the plan is rebuilt exactly when the
incoming frame key differs from the cached source key, every rebuild keeps
the destination unchanged, the scaled frame always lands in the cached
destination geometry; and in the concrete two-frame run whose second frame
has different source geometry the plan is rebuilt exactly once while both
frames are scaled into the output geometry fixed by the first frame. -/
theorem scaler_rebuild :
    (∀ (enc : EncSt) (decoded : VideoFrame) (sc : Scaler),
      (send_frame enc decoded sc).2.1.dst = sc.dst ∧
      (send_frame enc decoded sc).2.1.src = decoded.geom ∧
      (send_frame enc decoded sc).2.1.rebuilds =
        sc.rebuilds + (if decoded.geom ≠ sc.src then 1 else 0) ∧
      (send_frame enc decoded sc).2.2 = { geom := sc.dst, pts := decoded.pts }) ∧
    (statsOf run7).map (·.scalerFinal.rebuilds) = some 1 ∧
    (statsOf run7).map (·.scalerFinal.dst) = some ⟨Pixel.yuv420p, 102, 100⟩ ∧
    (statsOf run7).map (·.scaledGeoms) =
      some [⟨Pixel.yuv420p, 102, 100⟩, ⟨Pixel.yuv420p, 102, 100⟩] := by
  refine ⟨?_, by decide, by decide, by decide⟩
  intro enc decoded sc
  unfold send_frame
  by_cases hne : decoded.geom ≠ sc.src
  · rw [if_pos hne]
    simp [hne]
  · rw [if_neg hne]
    simp [hne, (not_ne_iff.mp hne).symm]

/-- Claim C8: wrap_result turns success into a continue signal, turns the
two drain signals EAGAIN and EOF into normal loop termination, and returns
every other codec failure as an error; accordingly the decoder and encoder
drain loops end with a non-error result when output is unavailable or
exhausted. -/
theorem drain_signals :
    wrap_result (.ok ()) = .ok true ∧
    wrap_result (.error (AVError.other EAGAIN)) = .ok false ∧
    wrap_result (.error AVError.eof) = .ok false ∧
    (∀ n : Int, n ≠ EAGAIN →
      wrap_result (.error (AVError.other n)) = .error (AVError.other n)) ∧
    wrap_result (.error AVError.invalidData) = .error AVError.invalidData ∧
    (∀ (env : Env) (tb : Rational) (f : VideoFrame) (l : List VideoFrame) (st : DrainSt),
      (f :: l).length ≤ env.decDelay →
      drain_decoder_loop env false tb (f :: l) st = .ok (f :: l, st)) ∧
    (∀ (env : Env) (fl : Bool) (tb : Rational) (st : DrainSt),
      drain_decoder_loop env fl tb [] st = .ok ([], st)) ∧
    (∀ (d : Nat) (w : Bool) (tb : Rational) (p : VideoFrame) (l : List VideoFrame)
        (evs : List Event),
      (p :: l).length ≤ d →
      receive_packet_loop d w tb false (p :: l) evs = .ok (p :: l, evs)) ∧
    (∀ (d : Nat) (w : Bool) (tb : Rational) (evs : List Event),
      receive_packet_loop d w tb false [] evs = .ok ([], evs)) := by
  refine ⟨rfl, by simp [wrap_result], rfl, ?_, rfl, ?_, ?_, ?_, ?_⟩
  · intro n hn
    simp [wrap_result, hn]
  · intro env tb f l st hlen
    simp only [List.length_cons] at hlen
    simp only [drain_decoder_loop]
    split
    · rename_i hcond
      exfalso
      rcases hcond with hc | hc
      · exact absurd hc (by simp)
      · simp only [List.length_cons] at hc
        omega
    · rfl
  · intro env fl tb st
    rfl
  · intro d w tb p l evs hlen
    simp only [List.length_cons] at hlen
    simp only [receive_packet_loop]
    split
    · rename_i hcond
      exfalso
      rcases hcond with hc | hc
      · exact absurd hc (by simp)
      · simp only [List.length_cons] at hc
        omega
    · rfl
  · intro d w tb evs
    rfl

/-- Witness for C8 at concrete inputs. -/
theorem drain_signals_witness :
    wrap_result (.error (AVError.other 5)) = .error (AVError.other 5) ∧
    drain_decoder_loop env9 false OUTPUT_TIME_BASE [frameW] drainW = .ok ([frameW], drainW) ∧
    receive_packet_loop 1 true OUTPUT_TIME_BASE false [frameW] [] = .ok ([frameW], []) :=
  ⟨drain_signals.2.2.2.1 5 (by decide),
   drain_signals.2.2.2.2.2.1 env9 OUTPUT_TIME_BASE frameW [] drainW (by decide),
   drain_signals.2.2.2.2.2.2.2.1 1 true OUTPUT_TIME_BASE frameW [] [] (by decide)⟩

/-- Claim C9: the single synchronous receive of the first decoded frame
propagates any decoder error — in particular EAGAIN — as a fatal error,
unlike the drain sites that classify it through wrap_result as normal loop
termination; so conversion fails for any decoder that buffers the first
image instead of emitting it immediately. -/
theorem first_receive_fatal (env : Env) (f : FrameSpec) (rest : List FrameSpec)
    (hz : env.zipOk = true) (hfd : env.findDecoder (selectDecoderId f.filename) = true)
    (hdo : env.decoderOpenOk = true) (he : env.entryOk f.filename = true)
    (hd : 1 ≤ env.decDelay) :
    (convert env (f :: rest)).result = .error (ConvError.codecError (AVError.other EAGAIN)) ∧
    wrap_result (.error (AVError.other EAGAIN)) = .ok false := by
  have hnd : ¬ env.decDelay < 1 := by omega
  refine ⟨?_, by simp [wrap_result]⟩
  unfold convert
  simp only [hz, hfd, hdo, he, if_true, List.map_cons, listMin, send_packet,
    send_packet_pts, List.nil_append, receive_frame, List.length_cons,
    List.length_nil, Nat.zero_add, Bool.false_eq_true, false_or, hnd, if_false]

/-- Witness for C9: a decoder with one frame of latency fails the run. -/
theorem first_receive_fatal_witness :
    (convert env9 frames3).result = .error (ConvError.codecError (AVError.other EAGAIN)) ∧
    wrap_result (.error (AVError.other EAGAIN)) = .ok false :=
  first_receive_fatal env9 ⟨[49], 100⟩ [⟨[50], 200⟩, ⟨[51], 100⟩] rfl rfl rfl rfl
    (by decide)

/-- Claim C10: delays are 32-bit unsigned and the minimum is cast to i32 by
twos-complement wrap before the encode time base is built, so whenever the
minimum delay exceeds 2^31 - 1 the encode time base numerator is the
wrapped, negative value rather than the mathematical minimum. -/
theorem delay_wrap (frames : List FrameSpec) (m : Nat)
    (hm : listMin (frames.map (·.delay)) = some m)
    (hb : ∀ f ∈ frames, f.delay < 2 ^ 32)
    (hbig : 2 ^ 31 - 1 < m) :
    (encTimeBase m).num = (m : Int) - 2 ^ 32 ∧
    (encTimeBase m).num < 0 ∧
    (encTimeBase m).num ≠ (m : Int) := by
  have hmem := listMin_mem _ _ hm
  have hlt : m < 2 ^ 32 := by
    obtain ⟨f, hf, hfd⟩ := List.mem_map.mp hmem
    exact hfd ▸ hb f hf
  have hge : ¬ m < 2 ^ 31 := by omega
  unfold encTimeBase u32_as_i32
  rw [if_neg hge]
  dsimp only
  refine ⟨rfl, by omega, by omega⟩

/-- Witness for C10 at a single frame whose delay is 2^31 milliseconds. -/
theorem delay_wrap_witness :
    (encTimeBase (2 ^ 31)).num = ((2 ^ 31 : Nat) : Int) - 2 ^ 32 ∧
    (encTimeBase (2 ^ 31)).num < 0 ∧
    (encTimeBase (2 ^ 31)).num ≠ ((2 ^ 31 : Nat) : Int) :=
  delay_wrap [⟨[97], 2 ^ 31⟩] (2 ^ 31) (by decide) (by decide) (by decide)

end Slidevid
